import Mathlib

/-!
Verification of the release-matching and change-planning core of the
music-files-organizer repository (Rust). The definitions below are a shallow
embedding of the latest iteration of the source modules:

  * src/util/string_extensions.rs  (simplify, is_similar, similarity_score)
  * src/discogs/matcher.rs         (match_release_with_music_files, get_ok backoff)
  * src/discogs/model/refined.rs   (artist-name normalization)
  * src/discogs/create_tag.rs      (create_tag_from_discogs_data, strip_redundant_fields)
  * src/music_file/mod.rs          (target path derivation)
  * src/core/changes.rs            (get_file_changes, edit_changes)

Modelling conventions:
  * Rust `String` is modelled as Lean `String`/`List Char`; Rust byte-wise
    `&str` ordering coincides with codepoint ordering (UTF-8 order preserving).
  * Rust `u32`/`i32`/`usize` are modelled as `Nat`/`Int`; none of the verified
    code paths can overflow (values are track numbers, years, list lengths).
  * Rust `f64` rate-limit arithmetic is modelled with exact rationals `ℚ`
    (the concrete values exercised by the claims are small integers on which
    `f64` arithmetic is exact); `std::time::Duration` is an exact integer
    nanosecond count and is modelled as `Nat` nanoseconds.
  * The external crates `unidecode` (transliteration) and Rust's Unicode
    `to_lowercase` are abstracted as a parameter `pre : List Char → List Char`
    of the pipeline; for ASCII input the real composition is character-wise
    ASCII lower-casing, which `asciiPre` below implements, so concrete
    evaluations only use ASCII inputs.
  * The external crate `strsim` (normalized Damerau–Levenshtein) is embedded
    concretely, following the Lowrance–Wagner algorithm strsim implements.
  * The external crate `fuzzy_matcher` (SkimMatcherV2) is modelled by its
    match/no-match behaviour: `fuzzy_match(choice, pattern).is_some()` holds
    exactly when the pattern occurs as a subsequence of the choice (both
    strings are already simplified/lower-cased at the call sites).
-/

/-- Rust `char::is_ascii_alphanumeric`: ASCII letters and digits. -/
def isAsciiAlphanumericRust (c : Char) : Bool :=
  ('a' ≤ c && c ≤ 'z') || ('A' ≤ c && c ≤ 'Z') || ('0' ≤ c && c ≤ '9')

/-- Rust `char::is_ascii_whitespace`: space, tab, LF, FF, CR. -/
def isAsciiWhitespaceRust (c : Char) : Bool :=
  c == ' ' || c == '\t' || c == '\n' || c == '\x0c' || c == '\r'

/-- Rust `char::is_ascii_digit`. -/
def isAsciiDigitRust (c : Char) : Bool :=
  '0' ≤ c && c ≤ '9'

/-- ASCII lower-casing of one character (Rust `to_lowercase` on ASCII). -/
def asciiToLower (c : Char) : Char :=
  if 'A' ≤ c && c ≤ 'Z' then Char.ofNat (c.toNat + 32) else c

/-- Model of `unidecode(s).to_lowercase()` valid on ASCII input: `unidecode`
is the identity on printable ASCII and Unicode lower-casing is character-wise
ASCII lower-casing there. Used to instantiate the abstract `pre` parameter in
concrete evaluations (whose inputs are all ASCII). -/
def asciiPre (s : List Char) : List Char :=
  s.map asciiToLower

/-- Embedding of `StringExtensions::remove_special_chars` (string_extensions.rs:46-50):
keep only ASCII alphanumeric and ASCII whitespace characters. -/
def remove_special_chars (s : List Char) : List Char :=
  s.filter (fun c => isAsciiAlphanumericRust c || isAsciiWhitespaceRust c)

/-- Embedding of `StringExtensions::remove_excessive_whitespaces` (string_extensions.rs:52-54):
Rust `str::replace("  ", " ")`, replacing non-overlapping double-space
occurrences left to right. -/
def remove_excessive_whitespaces : List Char → List Char
  | [] => []
  | [c] => [c]
  | c1 :: c2 :: rest =>
    if c1 = ' ' ∧ c2 = ' ' then ' ' :: remove_excessive_whitespaces rest
    else c1 :: remove_excessive_whitespaces (c2 :: rest)

/-- Embedding of `StringExtensions::simplify` (string_extensions.rs:15-20):
`unidecode(self).to_lowercase().remove_special_chars().remove_excessive_whitespaces()`,
with the external transliteration + lower-casing stage abstracted as `pre`. -/
def simplify (pre : List Char → List Char) (s : List Char) : List Char :=
  remove_excessive_whitespaces (remove_special_chars (pre s))

/-- Read entry (i, j) of the Damerau–Levenshtein distance matrix (stored as a
list of columns indexed by j, each a list indexed by i). -/
def dlGet (m : List (List Nat)) (i j : Nat) : Nat :=
  (m.getD j []).getD i 0

/-- Write entry (i, j) of the Damerau–Levenshtein distance matrix. -/
def dlSet (m : List (List Nat)) (i j v : Nat) : List (List Nat) :=
  m.set j ((m.getD j []).set i v)

/-- Inner (j) loop body of strsim's `generic_damerau_levenshtein`. -/
def dlInner (aArr bArr : List Char) (i : Nat) (elems : List (Char × Nat))
    (st : List (List Nat) × Nat) (j : Nat) : List (List Nat) × Nat :=
  let distances := st.1
  let db := st.2
  let k := ((elems.find? (fun p => p.1 == bArr.getD (j - 1) ' ')).map (fun p => p.2)).getD 0
  let insertionCost := dlGet distances i (j + 1) + 1
  let deletionCost := dlGet distances (i + 1) j + 1
  let transpositionCost := dlGet distances k db + (i - k - 1) + 1 + (j - db - 1)
  let chEq := aArr.getD (i - 1) ' ' == bArr.getD (j - 1) ' '
  let substitutionCost := dlGet distances i j + (if chEq then 0 else 1)
  let db' := if chEq then j else db
  let distances' := dlSet distances (i + 1) (j + 1)
    (min substitutionCost (min insertionCost (min deletionCost transpositionCost)))
  (distances', db')

/-- Outer (i) loop body of strsim's `generic_damerau_levenshtein`. -/
def dlOuter (aArr bArr : List Char) (bLen : Nat)
    (st : List (List Nat) × List (Char × Nat)) (i : Nat) :
    List (List Nat) × List (Char × Nat) :=
  let distances := st.1
  let elems := st.2
  let inner := (List.range bLen).foldl
    (fun acc j0 => dlInner aArr bArr i elems acc (j0 + 1)) (distances, 0)
  (inner.1, (aArr.getD (i - 1) ' ', i) :: elems)

/-- Damerau–Levenshtein distance (with adjacent transpositions), embedding
strsim's `generic_damerau_levenshtein` (the Lowrance–Wagner algorithm with a
last-occurrence table), written with functional folds over the same
(aLen+2)×(bLen+2) matrix and the same recurrence. -/
def damerauLevenshtein (a b : List Char) : Nat :=
  let aLen := a.length
  let bLen := b.length
  if aLen = 0 then bLen
  else if bLen = 0 then aLen
  else
    let maxDistance := aLen + bLen
    let m0 : List (List Nat) := List.replicate (bLen + 2) (List.replicate (aLen + 2) 0)
    let m1 := dlSet m0 0 0 maxDistance
    let m2 := (List.range (aLen + 1)).foldl
      (fun m i => dlSet (dlSet m (i + 1) 0 maxDistance) (i + 1) 1 i) m1
    let m3 := (List.range (bLen + 1)).foldl
      (fun m j => dlSet (dlSet m 0 (j + 1) maxDistance) 1 (j + 1) j) m2
    let final := (List.range aLen).foldl
      (fun st i0 => dlOuter a b bLen st (i0 + 1)) (m3, [])
    dlGet final.1 (aLen + 1) (bLen + 1)

/-- strsim's `normalized_damerau_levenshtein`: 1 for two empty strings, else
`1 - distance / max(len a, len b)`, written as the equal rational
`(max - distance) / max` (exact rational model of the f64 value; the distance
is at most the larger length, and the two expressions coincide over ℚ). -/
def normalizedDamerauLevenshtein (a b : List Char) : ℚ :=
  if a.isEmpty && b.isEmpty then 1
  else Rat.divInt ((max a.length b.length : Int) - (damerauLevenshtein a b : Int))
    (max a.length b.length : Int)

/-- Match behaviour of `SkimMatcherV2::fuzzy_match(choice, pattern).is_some()`:
the pattern occurs as a subsequence of the choice. -/
def isSubseqOf : List Char → List Char → Bool
  | [], _ => true
  | _ :: _, [] => false
  | p :: ps, c :: cs => if p == c then isSubseqOf ps cs else isSubseqOf (p :: ps) cs

/-- Embedding of `StringExtensions::is_similar` (string_extensions.rs:22-38): normalized
Damerau–Levenshtein on simplified strings at threshold 0.85, or a fuzzy
subsequence match in either direction. -/
def is_similar (pre : List Char → List Char) (a b : String) : Bool :=
  let a' := simplify pre a.data
  let b' := simplify pre b.data
  (normalizedDamerauLevenshtein a' b' ≥ Rat.divInt 85 100)
    || isSubseqOf b' a' || isSubseqOf a' b'

/-- Embedding of `StringExtensions::similarity_score` (string_extensions.rs:40-44). -/
def similarity_score (pre : List Char → List Char) (a b : String) : ℚ :=
  normalizedDamerauLevenshtein (simplify pre a.data) (simplify pre b.data)

example : damerauLevenshtein "a".data "z".data = 1 := by decide
example : damerauLevenshtein "a".data "a".data = 0 := by decide
example : damerauLevenshtein "ab".data "ba".data = 1 := by decide
example : damerauLevenshtein "aaaa".data "zzzz".data = 4 := by decide
example : is_similar asciiPre "a" "a" = true := by decide
example : is_similar asciiPre "a" "z" = false := by decide

/-! ## Filesystem paths

A path is modelled as its list of components (`util/path.rs` helpers). -/

/-- A filesystem path, as the list of its components. -/
abbrev FsPath := List String

/-- Embedding of `PathExtensions::parent_or_empty` (util/path.rs:23-25). -/
def parent_or_empty (p : FsPath) : FsPath :=
  p.dropLast

/-- Embedding of `PathExtensions::file_name_or_empty` (util/path.rs:11-13). -/
def file_name_or_empty (p : FsPath) : String :=
  p.getLastD ""

/-- Index of the last dot of a file name that can split off an extension
(Rust `Path::extension` splits at the last dot, except a leading dot). -/
def lastDotIndex (name : List Char) : Option Nat :=
  ((List.range name.length).filter
    (fun i => decide (0 < i) && (name.getD i ' ' == '.'))).getLast?

/-- Embedding of `PathExtensions::extension_or_empty` (util/path.rs:15-17). -/
def extension_or_empty (p : FsPath) : String :=
  match lastDotIndex (file_name_or_empty p).data with
  | some i => ⟨(file_name_or_empty p).data.drop (i + 1)⟩
  | none => ""

/-- Rust `Path::file_stem` converted with `to_str`. -/
def file_stem (p : FsPath) : Option String :=
  let name := (file_name_or_empty p).data
  if name.isEmpty then none
  else
    match lastDotIndex name with
    | some i => some ⟨name.take i⟩
    | none => some ⟨name⟩

/-! ## Tag abstraction

The polymorphic `Tag` trait (src/tag/mod.rs) is modelled as a record of its
frame contents; `clear` yields the record with every frame absent. -/

/-- The frame contents of a `Tag` (src/tag/mod.rs trait capability set). -/
structure Tag where
  title : Option String
  album : Option String
  album_artist : Option String
  artist : Option String
  year : Option Int
  track_number : Option Nat
  total_tracks : Option Nat
  disc : Option Nat
  total_discs : Option Nat
  genre : Option String
  custom_texts : List (String × String)
deriving DecidableEq, Repr

/-- Embedding of `Tag::clear`: a tag with every frame absent. -/
def clearedTag : Tag :=
  ⟨none, none, none, none, none, none, none, none, none, none, []⟩

/-- Embedding of `Tag::custom_text(key)`: look up a custom text frame. -/
def Tag.custom_text (t : Tag) (key : String) : Option String :=
  (t.custom_texts.find? (fun p => p.1 == key)).map (fun p => p.2)

/-- Embedding of `Tag::set_custom_text(key, value)`. -/
def Tag.set_custom_text (t : Tag) (key : String) (v : Option String) : Tag :=
  { t with custom_texts :=
      match v with
      | some v => (key, v) :: t.custom_texts.filter (fun p => p.1 ≠ key)
      | none => t.custom_texts.filter (fun p => p.1 ≠ key) }

/-- A discovered local audio file (src/music_file/mod.rs). Durations are in
nanoseconds (Rust `std::time::Duration` is an exact integer nanosecond
count). -/
structure MusicFile where
  file_path : FsPath
  tag : Tag
  duration : Option Nat
deriving DecidableEq, Repr

/-! ## Refined Discogs model (src/discogs/model/refined.rs) -/

/-- Embedding of `refined::DiscogsArtist`. -/
structure DiscogsArtist where
  name : String
  join : Option String
deriving DecidableEq, Repr

/-- Embedding of `refined::DiscogsTrack` (duration in nanoseconds). -/
structure DiscogsTrack where
  title : String
  position : Nat
  disc : Nat
  duration : Option Nat
  artists : Option (List DiscogsArtist)
deriving DecidableEq, Repr

/-- Embedding of `refined::DiscogsRelease` (its `image` field keeps only the chosen URL;
the `disc_to_total_tracks` map is recomputed from `tracks` below, exactly as
`DiscogsRelease::disc_to_total_tracks` derives it). -/
structure DiscogsRelease where
  uri : String
  title : String
  year : Int
  styles : Option (List String)
  image : Option String
  tracks : List DiscogsTrack
  artists : List DiscogsArtist
deriving DecidableEq, Repr

/-- Embedding of `DiscogsRelease::disc_to_total_tracks` (refined.rs:139-145): the number of
tracks carrying disc number `d`. -/
def disc_to_total_tracks (tracks : List DiscogsTrack) (d : Nat) : Nat :=
  (tracks.filter (fun t => t.disc == d)).length

/-- The number of keys of the `disc_to_total_tracks` map: the number of
distinct disc values among the tracks. -/
def totalDiscsOf (tracks : List DiscogsTrack) : Nat :=
  ((tracks.map (fun t => t.disc)).dedup).length

/-- ASCII part of Rust `char::is_whitespace`, as used by `str::trim` (all
modelled names are ASCII). -/
def isRustWhitespace (c : Char) : Bool :=
  c == ' ' || c == '\t' || c == '\n' || c == '\x0b' || c == '\x0c' || c == '\r'

/-- Rust `str::trim`. -/
def rustTrim (s : String) : String :=
  ⟨((s.data.dropWhile isRustWhitespace).reverse.dropWhile isRustWhitespace).reverse⟩

/-- Whether the pattern `space, open paren, one or more digits, close paren`
(the regex fragment matched by the capture group of `.*( \(\d+\))` in
`DiscogsArtist::name`, refined.rs:225-239) occurs at index `i` of the name.
The greedy `\d+` must consume the maximal digit run, after which `)` must
follow. -/
def parenDigitOccurrenceAt (name : List Char) (i : Nat) : Bool :=
  match name.drop i with
  | ' ' :: '(' :: rest =>
    let digits := rest.takeWhile isAsciiDigitRust
    match decide (0 < digits.length), rest.drop digits.length with
    | true, ')' :: _ => true
    | _, _ => false
  | _ => false

/-- The first (leftmost) index at which the pattern occurs, if any: the
regex search reports the leftmost match, so the match lives in the line of
this occurrence. -/
def firstParenDigitOccurrence (cs : List Char) : Option Nat :=
  (List.range cs.length).find? (fun i => parenDigitOccurrenceAt cs i)

/-- Index just past the newline-free segment starting at `i`: the regex `.`
does not match a newline, so `.*` cannot extend the match past it. -/
def lineEndFrom (cs : List Char) (i : Nat) : Nat :=
  i + ((cs.drop i).takeWhile (fun c => c != '\n')).length

/-- Embedding of `DiscogsArtist::name` (refined.rs:225-239): the regex search
for `.*( \(\d+\))` reports the leftmost match, whose start lies in the line
of the FIRST occurrence of the pattern; within that match the greedy `.*`
(which cannot cross a newline) pushes the capture group to the LAST
occurrence inside that line. The name is cut at the capture's start and
trimmed; with no occurrence at all the name is only trimmed. For names
without newlines the cut is at the last occurrence of the whole name. -/
def discogsArtistName (raw : String) : String :=
  match firstParenDigitOccurrence raw.data with
  | none => rustTrim raw
  | some o1 =>
    match ((List.range (lineEndFrom raw.data o1)).filter
        (fun i => parenDigitOccurrenceAt raw.data i)).getLast? with
    | some i => rustTrim ⟨raw.data.take i⟩
    | none => rustTrim raw

example : discogsArtistName "Name (2)" = "Name" := by decide
example : discogsArtistName "Name (2) Extra" = "Name" := by decide
example : discogsArtistName "Name (2) Extra (3) More" = "Name (2) Extra" := by decide
example : discogsArtistName " Plain Name " = "Plain Name" := by decide
example : discogsArtistName "No (x) digits" = "No (x) digits" := by decide
example : discogsArtistName "A (1)\nB (2)" = "A" := by decide

/-! ## Release matcher (src/discogs/matcher.rs) -/

/-- A matched (file, track) pair: `DiscogsTrackMatch` (matcher.rs:82-85). -/
structure DiscogsTrackMatch where
  music_file : MusicFile
  track : DiscogsTrack
deriving DecidableEq, Repr

/-- The candidate title for a file: the tag title, else the file stem, else
the empty string (matcher.rs:264-267). -/
def track_title_of (f : MusicFile) : String :=
  match f.tag.title with
  | some t => t
  | none => (file_stem f.file_path).getD ""

/-- The `disc_position_matched` closure (matcher.rs:278): the file's disc tag
(defaulting to 1) equals the track's disc, and the file's track-number tag is
present and equals the track's position. -/
def disc_position_matched (f : MusicFile) (t : DiscogsTrack) : Bool :=
  (f.tag.disc.getD 1 == t.disc) && (f.tag.track_number == some t.position)

/-- The `title_matched` closure (matcher.rs:279). -/
def title_matched (pre : List Char → List Char) (f : MusicFile) (t : DiscogsTrack) : Bool :=
  is_similar pre (track_title_of f) t.title

/-- The `duration_matched` closure (matcher.rs:280-286): both durations
present and their absolute difference (computed by swapping so the larger is
second) strictly under `DURATION_DIFF_THRESHOLD` = 30 seconds. Durations are
in nanoseconds. -/
def duration_matched (fileDuration trackDuration : Option Nat) : Bool :=
  match fileDuration, trackDuration with
  | some duration1, some duration2 =>
    let p := if duration2 < duration1 then (duration2, duration1) else (duration1, duration2)
    p.2 - p.1 < 30 * 1000000000
  | _, _ => false

/-- The per-candidate acceptance predicate of the `find` in
`match_release_with_music_files` (matcher.rs:277-291):
`disc_position_matched()` in simplified mode, and
`(title_matched() && duration_matched()) || (title_matched() && disc_position_matched())`
in complex mode. -/
def trackMatches (pre : List Char → List Char) (f : MusicFile) (t : DiscogsTrack)
    (simplified_match : Bool) : Bool :=
  if simplified_match then
    disc_position_matched f t
  else
    (title_matched pre f t && duration_matched f.duration t.duration)
      || (title_matched pre f t && disc_position_matched f t)

/-- Stable insertion of `x` into `l`, placing `x` before the first element
`y` with `lt x y` (after all elements it does not strictly precede). -/
def insertStable (lt : α → α → Bool) (x : α) : List α → List α
  | [] => [x]
  | y :: ys => if lt x y then x :: y :: ys else y :: insertStable lt x ys

/-- Stable sort by a strict-precedence predicate, modelling Rust's stable
`sort_by`/itertools `sorted_by` (the output of a stable sort is uniquely
determined by a total-preorder comparator, so any stable implementation
agrees with Rust's). -/
def sortStable (lt : α → α → Bool) (l : List α) : List α :=
  l.foldl (fun acc x => insertStable lt x acc) []

/-- The track-list ordering produced by `sorted_by` (matcher.rs:268-276):
descending similarity score between the file's title and the track titles
(the Rust comparator compares the score of `b` against the score of `a`). -/
def sorted_by_title_similarity (pre : List Char → List Char) (title : String)
    (track_list : List DiscogsTrack) : List DiscogsTrack :=
  sortStable (fun a b => similarity_score pre title b.title < similarity_score pre title a.title)
    track_list

/-- The track selected for one file: the first acceptable track in
similarity order (matcher.rs:268-294). -/
def findTrackFor (pre : List Char → List Char) (track_list : List DiscogsTrack)
    (simplified_match : Bool) (f : MusicFile) : Option DiscogsTrack :=
  (sorted_by_title_similarity pre (track_title_of f) track_list).find?
    (fun t => trackMatches pre f t simplified_match)

/-- The per-file loop of `match_release_with_music_files` (matcher.rs:262-300):
each file must find an acceptable track, and the pairs are accumulated in
file order; any failure aborts the whole candidate. -/
def matchFiles (pre : List Char → List Char) (track_list : List DiscogsTrack)
    (simplified_match : Bool) : List MusicFile → Option (List DiscogsTrackMatch)
  | [] => some []
  | f :: fs =>
    match findTrackFor pre track_list simplified_match f with
    | none => none
    | some t =>
      match matchFiles pre track_list simplified_match fs with
      | none => none
      | some rest => some (⟨f, t⟩ :: rest)

/-- Embedding of `DiscogsMatcher::match_release_with_music_files` (matcher.rs:249-303):
reject when the track list is empty or its length differs from the file
count, else pair every file with a track. -/
def match_release_with_music_files (pre : List Char → List Char)
    (release : DiscogsRelease) (music_files : List MusicFile)
    (simplified_match : Bool) : Option (List DiscogsTrackMatch) :=
  let track_list := release.tracks
  if track_list.isEmpty || decide (track_list.length ≠ music_files.length) then none
  else matchFiles pre track_list simplified_match music_files

/-! ## Rate-limit backoff (src/discogs/matcher.rs `get_ok`, lines 402-432) -/

/-- An HTTP response as `get_ok` inspects it: its status code and the two
rate-limit headers parsed as numbers (f64 in Rust, exact rationals here; the
values exercised are small integers on which f64 arithmetic is exact). -/
structure HttpResponse where
  status : Nat
  rateLimit : Option ℚ
  rateLimitUsed : Option ℚ

/-- The sleep duration computed on a 429 response (matcher.rs:426-427):
`skip = min(used - limit, 0) + 1`, then sleep `skip * 60 / limit` seconds.
Written as a single integer ratio over the headers' numerators and
denominators so that the kernel can evaluate it; the lemma
`backoffSleepSeconds_eq` proves it equal to the source formula over ℚ. -/
def backoffSleepSeconds (rate_limit rate_limit_used : ℚ) : ℚ :=
  Rat.divInt
    ((min (rate_limit_used.num * rate_limit.den - rate_limit.num * rate_limit_used.den) 0
        + (rate_limit_used.den : Int) * (rate_limit.den : Int)) * 60 * rate_limit.den)
    (((rate_limit_used.den : Int) * (rate_limit.den : Int)) * rate_limit.num)

/-- The panic raised by `Duration::from_secs_f64` when the computed sleep is
negative or non-finite (matcher.rs:427): `skip` is negative whenever
`used <= limit - 2`, and a zero limit divides to a non-finite f64. -/
def durationPanicMsg : String :=
  "panicked in Duration::from_secs_f64: negative or non-finite seconds"

/-- Embedding of `DiscogsMatcher::get_ok` (matcher.rs:402-432) over a stream of responses
(one per attempt, modelling the unbounded retry loop on a finite prefix):
success returns the response together with the list of sleeps performed; a
429 with both headers computes the sleep and, when the limit is zero or the
sleep is negative, panics in `Duration::from_secs_f64` (aborting the run),
otherwise sleeps and retries the same request on the next response; a 429
with a missing header and any other non-success status are errors. (Header
values are modelled as finite rationals; NaN headers and sub-normal limits
overflowing the Duration are outside the model.) -/
def get_ok : List HttpResponse → Except String (HttpResponse × List ℚ)
  | [] => Except.error "ran out of modelled responses"
  | r :: rs =>
    if 200 ≤ r.status && r.status ≤ 299 then Except.ok (r, [])
    else if r.status == 429 then
      match r.rateLimit, r.rateLimitUsed with
      | some rate_limit, some rate_limit_used =>
        if rate_limit = 0 ∨ backoffSleepSeconds rate_limit rate_limit_used < 0 then
          Except.error durationPanicMsg
        else
          match get_ok rs with
          | Except.ok (resp, sleeps) =>
            Except.ok (resp, backoffSleepSeconds rate_limit rate_limit_used :: sleeps)
          | Except.error e => Except.error e
      | _, _ => Except.error "No required header"
    else Except.error "Expected successful status code"

/-! ## Tag synthesis from catalog data (src/discogs/create_tag.rs) -/

/-- The `(name, join)` pairs of an artist list, with `join` defaulting to
`"&"` (create_tag.rs:23-33). -/
def artistPairs (artists : List DiscogsArtist) : List (String × String) :=
  artists.map (fun a => (a.name, a.join.getD "&"))

/-- Join artist `(name, join)` pairs: flatten to `[name, join, ...]`, join
with single spaces, and trim (create_tag.rs:37-43). -/
def joinArtistPairs (pairs : List (String × String)) : String :=
  rustTrim (String.intercalate " " (pairs.flatMap (fun p => [p.1, p.2])))

/-- Embedding of `create_tag_from_discogs_data` (create_tag.rs:13-78). The original tag is
only a format template in Rust (cloned then cleared); every frame of the
result is synthesized from the catalog data. -/
def create_tag_from_discogs_data (original_tag : Tag) (discogs_track : DiscogsTrack)
    (discogs_release : DiscogsRelease) : Tag :=
  let _ := original_tag
  let album_artists := artistPairs discogs_release.artists
  let track_artists := discogs_track.artists.map artistPairs
  let total_discs := totalDiscsOf discogs_release.tracks
  { clearedTag with
    title := some discogs_track.title
    album := some discogs_release.title
    album_artist := some (if track_artists.isSome then "Various Artists"
      else joinArtistPairs album_artists)
    artist := some (joinArtistPairs (track_artists.getD album_artists))
    year := some discogs_release.year
    track_number := some discogs_track.position
    total_tracks := some (disc_to_total_tracks discogs_release.tracks discogs_track.disc)
    disc := if 1 < total_discs then some discogs_track.disc else none
    total_discs := if 1 < total_discs then some total_discs else none
    genre := some (String.intercalate "; " (discogs_release.styles.getD []))
    custom_texts := [("DISCOGS_RELEASE", discogs_release.uri)] }

/-- Embedding of `strip_redundant_fields` (create_tag.rs:81-90): a cleared tag with only
the allow-listed frames copied over (all ten standard frames plus the
`DISCOGS_RELEASE` custom text). -/
def strip_redundant_fields (tag : Tag) : Tag :=
  { title := tag.title
    album := tag.album
    album_artist := tag.album_artist
    artist := tag.artist
    year := tag.year
    track_number := tag.track_number
    total_tracks := tag.total_tracks
    disc := tag.disc
    total_discs := tag.total_discs
    genre := tag.genre
    custom_texts :=
      match tag.custom_text "DISCOGS_RELEASE" with
      | some v => [("DISCOGS_RELEASE", v)]
      | none => [] }

/-! ## Target path derivation (src/music_file/mod.rs) -/

/-- Characters the `sanitize_filename` crate replaces (illegal filename
characters and control characters; Windows-only handling is not active on the
modelled platform). -/
def isIllegalFsChar (c : Char) : Bool :=
  c == '/' || c == '?' || c == '<' || c == '>' || c == '\\' || c == ':'
    || c == '*' || c == '|' || c == '"'
    || decide (c.toNat < 32) || (decide (128 ≤ c.toNat) && decide (c.toNat ≤ 159))

/-- Embedding of `sanitize_path` (music_file/mod.rs:79-87): replace each illegal character
with `"-"`. -/
def sanitize_path (s : String) : String :=
  ⟨s.data.map (fun c => if isIllegalFsChar c then '-' else c)⟩

/-- Zero-padded two-digit rendering, Rust's `{:02}` format. -/
def pad2 (n : Nat) : String :=
  if n < 10 then "0" ++ toString n else toString n

/-- Embedding of `music_file_name_for` (music_file/mod.rs:55-77). -/
def music_file_name_for (tag : Tag) (with_extension : String) : Except String String :=
  match tag.track_number with
  | none => Except.error "No Track to form music file name"
  | some track =>
    match tag.title with
    | none => Except.error "No Title to form music file name"
    | some title =>
      Except.ok (sanitize_path (match tag.disc with
        | some disc => pad2 disc ++ "." ++ pad2 track ++ ". " ++ title ++ "." ++ with_extension
        | none => pad2 track ++ ". " ++ title ++ "." ++ with_extension))

/-- Embedding of `music_folder_path_for` (music_file/mod.rs:39-53). -/
def music_folder_path_for (tag : Tag) : Except String FsPath :=
  match tag.album_artist.or tag.artist with
  | none => Except.error "No Album Artist to form music folder name"
  | some album_artist =>
    match tag.year with
    | none => Except.error "No Year to form music folder name"
    | some year =>
      match tag.album with
      | none => Except.error "No Album to form music folder name"
      | some album =>
        Except.ok [sanitize_path album_artist,
          sanitize_path ("(" ++ toString year ++ ") " ++ album)]

/-- Embedding of `relative_path_for` (music_file/mod.rs:35-37). -/
def relative_path_for (tag : Tag) (with_extension : String) : Except String FsPath :=
  match music_folder_path_for tag with
  | Except.error e => Except.error e
  | Except.ok folder =>
    match music_file_name_for tag with_extension with
    | Except.error e => Except.error e
    | Except.ok name => Except.ok (folder ++ [name])

/-! ## Change planning (src/core/changes.rs) -/

/-- Embedding of `DiscogsReleaseMatchResult` (matcher.rs:87-93). -/
inductive DiscogsReleaseMatchResult where
  | matched (tracks_matching : List DiscogsTrackMatch) (release : DiscogsRelease)
  | unmatched (music_files : List MusicFile)
deriving DecidableEq, Repr

/-- Embedding of `MusicFileChange` (changes.rs:31-37). -/
structure MusicFileChange where
  source : MusicFile
  target : MusicFile
  is_transcode : Bool
  source_file_length : Nat
  discogs_release : Option DiscogsRelease
deriving DecidableEq, Repr

/-- Lexicographic comparison of strings by codepoint; Rust's byte-wise `&str`
ordering coincides with it (UTF-8 preserves codepoint order). -/
def lexCmpChars : List Char → List Char → Ordering
  | [], [] => Ordering.eq
  | [], _ :: _ => Ordering.lt
  | _ :: _, [] => Ordering.gt
  | x :: xs, y :: ys =>
    if x < y then Ordering.lt else if y < x then Ordering.gt else lexCmpChars xs ys

/-- Rust `str::cmp`. -/
def cmpString (a b : String) : Ordering :=
  lexCmpChars a.data b.data

/-- Rust `Int` comparison as an `Ordering`. -/
def cmpInt (a b : Int) : Ordering :=
  if a < b then Ordering.lt else if b < a then Ordering.gt else Ordering.eq

/-- Rust `Option<u32>::cmp`: `None` sorts before `Some`. -/
def cmpOptNat : Option Nat → Option Nat → Ordering
  | none, none => Ordering.eq
  | none, some _ => Ordering.lt
  | some _, none => Ordering.gt
  | some a, some b =>
    if a < b then Ordering.lt else if b < a then Ordering.gt else Ordering.eq

/-- The comparator of the final `result.sort_by` in `get_file_changes`
(changes.rs:332-346): track number when album and year both tie, album when
only year ties, year otherwise; album defaults to `""` and year to
`i32::MIN`. -/
def changeCmp (lhs rhs : MusicFileChange) : Ordering :=
  let l := lhs.target.tag
  let r := rhs.target.tag
  let lhs_album := l.album.getD ""
  let rhs_album := r.album.getD ""
  let lhs_year := l.year.getD (-2147483648)
  let rhs_year := r.year.getD (-2147483648)
  if lhs_album == rhs_album && lhs_year == rhs_year then
    cmpOptNat l.track_number r.track_number
  else if lhs_year == rhs_year then
    cmpString lhs_album rhs_album
  else
    cmpInt lhs_year rhs_year

/-- The stable `sort_by` applied at the end of `get_file_changes`. -/
def sortChanges (changes : List MusicFileChange) : List MusicFileChange :=
  sortStable (fun a b => changeCmp a b == Ordering.lt) changes

/-- The `match_items` flattening of `get_file_changes` (changes.rs:278-290). -/
def matchItems (results : List DiscogsReleaseMatchResult) :
    List (MusicFile × Option (DiscogsTrack × DiscogsRelease)) :=
  results.flatMap (fun r =>
    match r with
    | DiscogsReleaseMatchResult.matched tracks_matching release =>
      tracks_matching.map (fun v => (v.music_file, some (v.track, release)))
    | DiscogsReleaseMatchResult.unmatched music_files =>
      music_files.map (fun f => (f, none)))

/-- The per-item body of `get_file_changes` (changes.rs:292-330). The file
length read from the filesystem is supplied by `file_len`. -/
def fileChangeFor (output_path : Option FsPath) (file_len : FsPath → Nat)
    (item : MusicFile × Option (DiscogsTrack × DiscogsRelease)) :
    Except String MusicFileChange :=
  let music_file := item.1
  let target_tag := match item.2 with
    | some (discogs_track, discogs_release) =>
      create_tag_from_discogs_data music_file.tag discogs_track discogs_release
    | none => strip_redundant_fields music_file.tag
  let source_extension := extension_or_empty music_file.file_path
  let target_extension := if source_extension == "flac" then "m4a" else source_extension
  let pathResult : Except String FsPath := match output_path with
    | some out =>
      match relative_path_for target_tag target_extension with
      | Except.error e => Except.error e
      | Except.ok rel => Except.ok (out ++ rel)
    | none =>
      match music_file_name_for target_tag target_extension with
      | Except.error e => Except.error e
      | Except.ok name => Except.ok (parent_or_empty music_file.file_path ++ [name])
  match pathResult with
  | Except.error e => Except.error e
  | Except.ok file_path =>
    Except.ok
      { source := music_file
        target := { file_path := file_path, tag := target_tag, duration := music_file.duration }
        is_transcode := !(source_extension == target_extension)
        source_file_length := file_len music_file.file_path
        discogs_release := item.2.map (fun v => v.2) }

/-- Embedding of `get_file_changes` (changes.rs:272-349): one change per flattened item,
then the stable sort. -/
def get_file_changes (results : List DiscogsReleaseMatchResult)
    (output_path : Option FsPath) (file_len : FsPath → Nat) :
    Except String (List MusicFileChange) :=
  match (matchItems results).mapM (fileChangeFor output_path file_len) with
  | Except.error e => Except.error e
  | Except.ok changes => Except.ok (sortChanges changes)

/-! ## Interactive edit pass (src/core/changes.rs `edit_changes`, lines 78-179) -/

/-- The delimiter line written between tracks (changes.rs:82). -/
def TRACK_DELIMITER : String := "--------------------------"

/-- The frame identifiers (src/tag/frame.rs). -/
inductive FrameId where
  | title
  | album
  | albumArtist
  | artist
  | year
  | track
  | totalTracks
  | disc
  | totalDiscs
  | genre
  | customText (key : String)
deriving DecidableEq, Repr

/-- Embedding of `FrameId::from_str` (frame.rs:72-92); an unknown name becomes a custom
text key, so parsing a frame identifier never fails. -/
def frameIdFromStr (s : String) : FrameId :=
  if s == "Title" then FrameId.title
  else if s == "Album" then FrameId.album
  else if s == "Album Artist" then FrameId.albumArtist
  else if s == "Artist" then FrameId.artist
  else if s == "Year" then FrameId.year
  else if s == "Track" then FrameId.track
  else if s == "Total Tracks" then FrameId.totalTracks
  else if s == "Disc" then FrameId.disc
  else if s == "Total Discs" then FrameId.totalDiscs
  else if s == "Genre" then FrameId.genre
  else FrameId.customText s

/-- Scan for the first `": "` separator preceded by at least one character,
the split produced by the lazy regex `^(.+?): (.*)$` (changes.rs:83). -/
def parseLineAux (acc : List Char) : List Char → Option (String × String)
  | ':' :: ' ' :: rest =>
    if acc.isEmpty then parseLineAux [':'] (' ' :: rest)
    else some (⟨acc.reverse⟩, ⟨rest⟩)
  | c :: rest => parseLineAux (c :: acc) rest
  | [] => none

/-- The captures of `^(.+?): (.*)$` on one edited line: the (nonempty) text
before the first eligible `": "` and everything after it. -/
def parseLine (line : String) : Option (String × String) :=
  parseLineAux [] line.data

/-- A nonempty all-digit string as a number. -/
def parseNatDigits (s : List Char) : Option Nat :=
  if s.isEmpty || !(s.all isAsciiDigitRust) then none
  else some (s.foldl (fun n c => n * 10 + (c.toNat - 48)) 0)

/-- Rust `str::parse::<u32>`: optional `+` sign, digits, range check. -/
def parseU32 (s : String) : Option Nat :=
  let digits := match s.data with
    | '+' :: rest => rest
    | other => other
  match parseNatDigits digits with
  | some n => if n < 4294967296 then some n else none
  | none => none

/-- Rust `str::parse::<i32>`: optional sign, digits, range check. -/
def parseI32 (s : String) : Option Int :=
  match s.data with
  | '-' :: rest =>
    match parseNatDigits rest with
    | some n => if n ≤ 2147483648 then some (-(n : Int)) else none
    | none => none
  | '+' :: rest =>
    match parseNatDigits rest with
    | some n => if n < 2147483648 then some (n : Int) else none
    | none => none
  | other =>
    match parseNatDigits other with
    | some n => if n < 2147483648 then some (n : Int) else none
    | none => none

/-- Parse one edited line and apply it to the tag being rebuilt
(changes.rs:120-144): a line not matching the pattern is the error
`Invalid line: <line>`; numeric frames parse their value (a failure is a bare
numeric-parse error, without the line text); string frames are taken
verbatim. -/
def applyEditedLine (tag : Tag) (line : String) : Except String Tag :=
  match parseLine line with
  | none => Except.error ("Invalid line: " ++ line)
  | some (frame_id_as_string, frame_content_as_string) =>
    match frameIdFromStr frame_id_as_string with
    | FrameId.title => Except.ok { tag with title := some frame_content_as_string }
    | FrameId.album => Except.ok { tag with album := some frame_content_as_string }
    | FrameId.albumArtist => Except.ok { tag with album_artist := some frame_content_as_string }
    | FrameId.artist => Except.ok { tag with artist := some frame_content_as_string }
    | FrameId.genre => Except.ok { tag with genre := some frame_content_as_string }
    | FrameId.customText key =>
      Except.ok (tag.set_custom_text key (some frame_content_as_string))
    | FrameId.year =>
      match parseI32 frame_content_as_string with
      | some v => Except.ok { tag with year := some v }
      | none => Except.error "invalid digit found in string"
    | FrameId.track =>
      match parseU32 frame_content_as_string with
      | some v => Except.ok { tag with track_number := some v }
      | none => Except.error "invalid digit found in string"
    | FrameId.totalTracks =>
      match parseU32 frame_content_as_string with
      | some v => Except.ok { tag with total_tracks := some v }
      | none => Except.error "invalid digit found in string"
    | FrameId.disc =>
      match parseU32 frame_content_as_string with
      | some v => Except.ok { tag with disc := some v }
      | none => Except.error "invalid digit found in string"
    | FrameId.totalDiscs =>
      match parseU32 frame_content_as_string with
      | some v => Except.ok { tag with total_discs := some v }
      | none => Except.error "invalid digit found in string"

/-- The inner `loop` of `edit_changes` (changes.rs:111-145): consume lines
into the rebuilt tag until the track delimiter; running out of lines is the
error `Failed to find meta for track`. -/
def parseTrackSection (tag : Tag) : List String → Except String (Tag × List String)
  | [] => Except.error "Failed to find meta for track"
  | line :: rest =>
    if line == TRACK_DELIMITER then Except.ok (tag, rest)
    else
      match applyEditedLine tag line with
      | Except.error e => Except.error e
      | Except.ok tag' => parseTrackSection tag' rest

/-- The per-change rebuild of `edit_changes` (changes.rs:106-170): each
pre-edit change consumes one delimited section, rebuilds its target tag from
a cleared tag, and re-derives its target path. -/
def editLoop (output_path : Option FsPath) :
    List MusicFileChange → List String → Except String (List MusicFileChange)
  | [], _ => Except.ok []
  | music_file :: restChanges, lines =>
    match parseTrackSection clearedTag lines with
    | Except.error e => Except.error e
    | Except.ok (new_tag, restLines) =>
      let ext := extension_or_empty music_file.target.file_path
      let pathResult : Except String FsPath := match output_path with
        | some out =>
          match relative_path_for new_tag ext with
          | Except.error e => Except.error e
          | Except.ok rel => Except.ok (out ++ rel)
        | none =>
          match music_file_name_for new_tag ext with
          | Except.error e => Except.error e
          | Except.ok name =>
            Except.ok (parent_or_empty music_file.source.file_path ++ [name])
      match pathResult with
      | Except.error e => Except.error e
      | Except.ok file_path =>
        match editLoop output_path restChanges restLines with
        | Except.error e => Except.error e
        | Except.ok others =>
          Except.ok ({ music_file with
            target := { music_file.target with file_path := file_path, tag := new_tag } }
            :: others)

/-- Embedding of `edit_changes` (changes.rs:78-179) restricted to the music-file list of
the change list. `edited` is the text returned by the external editor, split
into lines; `none` models the editor being closed without saving, in which
case the pre-edit changes are returned unchanged. -/
def edit_changes (changes : List MusicFileChange) (edited : Option (List String))
    (output_path : Option FsPath) : Except String (List MusicFileChange) :=
  match edited with
  | none => Except.ok changes
  | some lines => editLoop output_path changes lines

/-! ## Spec-side definitions (the claims as written, for refinement checks) -/

/-- C1 as the spec states it: `(title similarity passes OR duration
similarity passes) AND (the track-number tag, when present, equals the
track's position; no constraint when absent)`. -/
def specC1Accepts (pre : List Char → List Char) (f : MusicFile) (t : DiscogsTrack) : Bool :=
  (title_matched pre f t || duration_matched f.duration t.duration)
    && (match f.tag.track_number with
      | none => true
      | some n => n == t.position)

/-- C2 as the spec states it: `(max(used - limit, 0) + 1) * 60 / limit`. -/
def specSleepSeconds (rate_limit rate_limit_used : ℚ) : ℚ :=
  (max (rate_limit_used - rate_limit) 0 + 1) * 60 / rate_limit

/-- C6 as the spec states it: comparison by album first, then year, then
track number. -/
def specAlbumFirstCmp (lhs rhs : MusicFileChange) : Ordering :=
  let l := lhs.target.tag
  let r := rhs.target.tag
  match cmpString (l.album.getD "") (r.album.getD "") with
  | Ordering.lt => Ordering.lt
  | Ordering.gt => Ordering.gt
  | Ordering.eq =>
    match cmpInt (l.year.getD (-2147483648)) (r.year.getD (-2147483648)) with
    | Ordering.lt => Ordering.lt
    | Ordering.gt => Ordering.gt
    | Ordering.eq => cmpOptNat l.track_number r.track_number

/-- A change list sorted as C6 states it: album primary, year secondary,
track tie-break. -/
def specAlbumFirstSorted (changes : List MusicFileChange) : Bool :=
  match changes with
  | [] => true
  | _ :: rest =>
    (changes.zip rest).all (fun p => !(specAlbumFirstCmp p.1 p.2 == Ordering.gt))

/-- C7 as the spec states it: both durations present and absolute difference
strictly under 90 seconds (durations in nanoseconds). -/
def spec_duration_similar (fileDuration trackDuration : Option Nat) : Bool :=
  match fileDuration, trackDuration with
  | some d1, some d2 => (if d2 < d1 then d1 - d2 else d2 - d1) < 90 * 1000000000
  | _, _ => false

/-- The code-side sort order actually used by `get_file_changes`: year
primary, album secondary, track tie-break (this is what `changeCmp`
implements, stated lexicographically). -/
def yearFirstCmp (lhs rhs : MusicFileChange) : Ordering :=
  let l := lhs.target.tag
  let r := rhs.target.tag
  match cmpInt (l.year.getD (-2147483648)) (r.year.getD (-2147483648)) with
  | Ordering.lt => Ordering.lt
  | Ordering.gt => Ordering.gt
  | Ordering.eq =>
    match cmpString (l.album.getD "") (r.album.getD "") with
    | Ordering.lt => Ordering.lt
    | Ordering.gt => Ordering.gt
    | Ordering.eq => cmpOptNat l.track_number r.track_number

/-- A change list sorted by year primary, album secondary, track tie-break. -/
def yearFirstSorted (changes : List MusicFileChange) : Bool :=
  match changes with
  | [] => true
  | _ :: rest =>
    (changes.zip rest).all (fun p => !(yearFirstCmp p.1 p.2 == Ordering.gt))

/-! ## General lemmas about the stable sort -/

theorem insertStable_perm (lt : α → α → Bool) (x : α) (l : List α) :
    (insertStable lt x l).Perm (x :: l) := by
  induction l with
  | nil => simp [insertStable]
  | cons y ys ih =>
    by_cases h : lt x y = true
    · simp [insertStable, h]
    · simp only [insertStable, h]
      rw [if_neg (by simp [h])]
      exact ((ih.cons y).trans (List.Perm.swap x y ys)).symm.symm

theorem sortStable_perm_aux (lt : α → α → Bool) (l acc : List α) :
    (l.foldl (fun a x => insertStable lt x a) acc).Perm (acc ++ l) := by
  induction l generalizing acc with
  | nil => simp
  | cons x xs ih =>
    have h1 := ih (insertStable lt x acc)
    have h2 := (insertStable_perm lt x acc).append_right xs
    have h3 : ((x :: acc) ++ xs).Perm (acc ++ x :: xs) := by
      simpa using List.perm_middle.symm
    exact (h1.trans h2).trans h3

theorem sortStable_perm (lt : α → α → Bool) (l : List α) :
    (sortStable lt l).Perm l := by
  simpa using sortStable_perm_aux lt l []

theorem mem_sortStable (lt : α → α → Bool) (l : List α) (x : α) :
    x ∈ sortStable lt l ↔ x ∈ l :=
  (sortStable_perm lt l).mem_iff

theorem insertStable_chain (lt le : α → α → Bool)
    (hlt : ∀ a b, lt a b = true → le a b = true)
    (hflip : ∀ a b, lt a b = false → le b a = true)
    (x : α) (l : List α) (h : List.Chain' (fun a b => le a b = true) l) :
    List.Chain' (fun a b => le a b = true) (insertStable lt x l) := by
  induction l with
  | nil => simp [insertStable]
  | cons y ys ih =>
    by_cases hxy : lt x y = true
    · simp only [insertStable, if_pos hxy]
      exact h.cons (hlt x y hxy)
    · simp only [insertStable, if_neg hxy]
      have hys : List.Chain' (fun a b => le a b = true) ys := h.tail
      have hins := ih hys
      cases ys with
      | nil =>
        simp [insertStable]
        exact hflip x y (by simpa using hxy)
      | cons z zs =>
        by_cases hxz : lt x z = true
        · simp only [insertStable, if_pos hxz] at hins ⊢
          exact hins.cons (hflip x y (by simpa using hxy))
        · simp only [insertStable, if_neg hxz] at hins ⊢
          rcases List.chain'_cons.mp h with ⟨hyz, _⟩
          exact hins.cons hyz

theorem sortStable_chain_aux (lt le : α → α → Bool)
    (hlt : ∀ a b, lt a b = true → le a b = true)
    (hflip : ∀ a b, lt a b = false → le b a = true)
    (l acc : List α) (hacc : List.Chain' (fun a b => le a b = true) acc) :
    List.Chain' (fun a b => le a b = true)
      (l.foldl (fun a x => insertStable lt x a) acc) := by
  induction l generalizing acc with
  | nil => simpa using hacc
  | cons x xs ih =>
    exact ih (insertStable lt x acc) (insertStable_chain lt le hlt hflip x acc hacc)

theorem sortStable_chain (lt le : α → α → Bool)
    (hlt : ∀ a b, lt a b = true → le a b = true)
    (hflip : ∀ a b, lt a b = false → le b a = true)
    (l : List α) :
    List.Chain' (fun a b => le a b = true) (sortStable lt l) :=
  sortStable_chain_aux lt le hlt hflip l [] (by simp)

/-! ## Lemmas about the per-file matching loop -/

theorem matchFiles_shape (pre : List Char → List Char) (tl : List DiscogsTrack)
    (s : Bool) (fs : List MusicFile) (m : List DiscogsTrackMatch)
    (h : matchFiles pre tl s fs = some m) :
    m.map (fun x => x.music_file) = fs ∧ m.length = fs.length := by
  induction fs generalizing m with
  | nil =>
    simp [matchFiles] at h
    subst h
    simp
  | cons f fs ih =>
    simp only [matchFiles] at h
    cases hf : findTrackFor pre tl s f with
    | none => rw [hf] at h; exact absurd h (by simp)
    | some t =>
      rw [hf] at h
      cases hrest : matchFiles pre tl s fs with
      | none => rw [hrest] at h; exact absurd h (by simp)
      | some rest =>
        rw [hrest] at h
        have hm : m = ⟨f, t⟩ :: rest := by
          cases h
          rfl
        subst hm
        rcases ih rest hrest with ⟨h1, h2⟩
        simp [h1, h2]

theorem findTrackFor_mem (pre : List Char → List Char) (tl : List DiscogsTrack)
    (s : Bool) (f : MusicFile) (t : DiscogsTrack)
    (h : findTrackFor pre tl s f = some t) : t ∈ tl := by
  have := List.mem_of_find?_eq_some h
  exact (mem_sortStable _ tl t).mp this

theorem matchFiles_track_mem (pre : List Char → List Char) (tl : List DiscogsTrack)
    (s : Bool) (fs : List MusicFile) (m : List DiscogsTrackMatch)
    (h : matchFiles pre tl s fs = some m) :
    ∀ x ∈ m, x.track ∈ tl := by
  induction fs generalizing m with
  | nil =>
    simp [matchFiles] at h
    subst h
    simp
  | cons f fs ih =>
    simp only [matchFiles] at h
    cases hf : findTrackFor pre tl s f with
    | none => rw [hf] at h; exact absurd h (by simp)
    | some t =>
      rw [hf] at h
      cases hrest : matchFiles pre tl s fs with
      | none => rw [hrest] at h; exact absurd h (by simp)
      | some rest =>
        rw [hrest] at h
        have hm : m = ⟨f, t⟩ :: rest := by
          cases h
          rfl
        subst hm
        intro x hx
        rcases List.mem_cons.mp hx with hx | hx
        · subst hx
          exact findTrackFor_mem pre tl s f t hf
        · exact ih rest hrest x hx

/-! ## Comparator lemmas -/

theorem lexCmpChars_swap (xs ys : List Char) :
    lexCmpChars ys xs = (lexCmpChars xs ys).swap := by
  induction xs generalizing ys with
  | nil => cases ys <;> simp [lexCmpChars, Ordering.swap]
  | cons x xs ih =>
    cases ys with
    | nil => simp [lexCmpChars, Ordering.swap]
    | cons y ys =>
      simp only [lexCmpChars]
      rcases lt_trichotomy x y with h | h | h
      · rw [if_neg (lt_asymm h), if_pos h, if_pos h]
        rfl
      · subst h
        rw [if_neg (lt_irrefl x), if_neg (lt_irrefl x), if_neg (lt_irrefl x),
          if_neg (lt_irrefl x)]
        exact ih ys
      · rw [if_pos h, if_neg (lt_asymm h), if_pos h]
        rfl

theorem lexCmpChars_eq_iff (xs ys : List Char) :
    lexCmpChars xs ys = Ordering.eq ↔ xs = ys := by
  induction xs generalizing ys with
  | nil => cases ys <;> simp [lexCmpChars]
  | cons x xs ih =>
    cases ys with
    | nil => simp [lexCmpChars]
    | cons y ys =>
      simp only [lexCmpChars]
      rcases lt_trichotomy x y with h | h | h
      · rw [if_pos h]
        simp [ne_of_lt h]
      · subst h
        rw [if_neg (lt_irrefl x), if_neg (lt_irrefl x)]
        simp [ih ys]
      · rw [if_neg (lt_asymm h), if_pos h]
        simp [(ne_of_lt h).symm]

theorem cmpString_swap (a b : String) : cmpString b a = (cmpString a b).swap :=
  lexCmpChars_swap a.data b.data

theorem cmpString_eq_iff (a b : String) : cmpString a b = Ordering.eq ↔ a = b := by
  rw [cmpString, lexCmpChars_eq_iff]
  constructor
  · intro h
    cases a
    cases b
    exact congrArg String.mk h
  · intro h
    rw [h]

theorem cmpInt_swap (a b : Int) : cmpInt b a = (cmpInt a b).swap := by
  unfold cmpInt
  rcases lt_trichotomy a b with h | h | h
  · rw [if_neg (lt_asymm h), if_pos h, if_pos h]
    rfl
  · subst h
    rw [if_neg (lt_irrefl a), if_neg (lt_irrefl a)]
    rfl
  · rw [if_pos h, if_neg (lt_asymm h), if_pos h]
    rfl

theorem cmpInt_eq_iff (a b : Int) : cmpInt a b = Ordering.eq ↔ a = b := by
  unfold cmpInt
  rcases lt_trichotomy a b with h | h | h
  · rw [if_pos h]
    simp [ne_of_lt h]
  · subst h
    rw [if_neg (lt_irrefl a), if_neg (lt_irrefl a)]
    simp
  · rw [if_neg (lt_asymm h), if_pos h]
    simp [(ne_of_lt h).symm]

theorem cmpOptNat_swap (a b : Option Nat) : cmpOptNat b a = (cmpOptNat a b).swap := by
  cases a with
  | none => cases b <;> rfl
  | some x =>
    cases b with
    | none => rfl
    | some y =>
      simp only [cmpOptNat]
      rcases lt_trichotomy x y with h | h | h
      · rw [if_neg (lt_asymm h), if_pos h, if_pos h]
        rfl
      · subst h
        rw [if_neg (lt_irrefl x), if_neg (lt_irrefl x)]
        rfl
      · rw [if_pos h, if_neg (lt_asymm h), if_pos h]
        rfl

theorem cmpInt_self (a : Int) : cmpInt a a = Ordering.eq := by
  unfold cmpInt
  rw [if_neg (lt_irrefl a), if_neg (lt_irrefl a)]

theorem cmpString_self (a : String) : cmpString a a = Ordering.eq :=
  (cmpString_eq_iff a a).mpr rfl

/-- The planner's three-branch comparator is exactly the lexicographic
(year, album, track-number) comparison. -/
theorem changeCmp_eq_yearFirstCmp (a b : MusicFileChange) :
    changeCmp a b = yearFirstCmp a b := by
  simp only [changeCmp, yearFirstCmp]
  by_cases hY : a.target.tag.year.getD (-2147483648) = b.target.tag.year.getD (-2147483648)
  · by_cases hA : a.target.tag.album.getD "" = b.target.tag.album.getD ""
    · rw [hY, hA]
      simp [cmpInt_self, cmpString_self]
    · have h1 : (a.target.tag.album.getD "" == b.target.tag.album.getD "") = false := by
        simp [hA]
      rw [hY]
      simp only [h1, Bool.false_and, Bool.false_eq_true, if_false, cmpInt_self]
      have h2 : (b.target.tag.year.getD (-2147483648) ==
          b.target.tag.year.getD (-2147483648)) = true := by simp
      simp only [h2, if_true]
      cases h : cmpString (a.target.tag.album.getD "") (b.target.tag.album.getD "") with
      | lt => rfl
      | gt => rfl
      | eq => exact absurd ((cmpString_eq_iff _ _).mp h) hA
  · have h1 : (a.target.tag.year.getD (-2147483648) ==
        b.target.tag.year.getD (-2147483648)) = false := by simp [hY]
    simp only [h1, Bool.and_false, Bool.false_eq_true, if_false]
    cases h : cmpInt (a.target.tag.year.getD (-2147483648))
        (b.target.tag.year.getD (-2147483648)) with
    | lt => rfl
    | gt => rfl
    | eq => exact absurd ((cmpInt_eq_iff _ _).mp h) hY

/-- Lexicographic comparison swaps with its arguments. -/
theorem yearFirstCmp_swap (a b : MusicFileChange) :
    yearFirstCmp b a = (yearFirstCmp a b).swap := by
  simp only [yearFirstCmp]
  rw [cmpInt_swap, cmpString_swap, cmpOptNat_swap]
  cases cmpInt (a.target.tag.year.getD (-2147483648))
      (b.target.tag.year.getD (-2147483648)) with
  | lt => rfl
  | gt => rfl
  | eq =>
    cases cmpString (a.target.tag.album.getD "") (b.target.tag.album.getD "") with
    | lt => rfl
    | gt => rfl
    | eq => cases cmpOptNat a.target.tag.track_number b.target.tag.track_number <;> rfl

theorem yearFirstSorted_iff_chain (l : List MusicFileChange) :
    yearFirstSorted l = true ↔
      List.Chain' (fun a b => (!(yearFirstCmp a b == Ordering.gt)) = true) l := by
  induction l with
  | nil => simp [yearFirstSorted]
  | cons x xs ih =>
    cases xs with
    | nil => simp [yearFirstSorted]
    | cons y ys =>
      rw [List.chain'_cons]
      have h1 : yearFirstSorted (x :: y :: ys) =
          ((!(yearFirstCmp x y == Ordering.gt)) && yearFirstSorted (y :: ys)) := by
        simp [yearFirstSorted]
      rw [h1]
      simp only [Bool.and_eq_true]
      exact and_congr Iff.rfl ih

/-- A tag with only title, album, year and track number set. -/
def tagSimple (title album : Option String) (year : Option Int) (track : Option Nat) : Tag :=
  ⟨title, album, none, none, year, track, none, none, none, none, []⟩

/-- Fixture for claim C6: album "A", year 2001, track 1. -/
def fC6x : MusicFile :=
  ⟨["d", "x.mp3"], tagSimple (some "t") (some "A") (some 2001) (some 1), none⟩

/-- Fixture for claim C6: album "B", year 2000, track 1. -/
def fC6y : MusicFile :=
  ⟨["d", "y.mp3"], tagSimple (some "t") (some "B") (some 2000) (some 1), none⟩

/-- Claim C6, counterexample: the claim says the planner's final music-file
change list is sorted with album as the primary key and year secondary, but
on files with albums A (year 2001) and B (year 2000) the planner emits B
before A, because the comparator makes year the primary key: the output
violates the album-primary order stated by the spec. -/
theorem C6_counterexample :
    ((get_file_changes [DiscogsReleaseMatchResult.unmatched [fC6x, fC6y]] none
        (fun _ => 0)).toOption.map (fun l => l.map (fun c => c.target.tag.album)))
      = some [some "B", some "A"]
    ∧ ((get_file_changes [DiscogsReleaseMatchResult.unmatched [fC6x, fC6y]] none
        (fun _ => 0)).toOption.map specAlbumFirstSorted) = some false := by
  constructor
  · rfl
  · rfl

/-- Claim C6, amended: the planner's final music-file change list is sorted
with year as the primary key, album secondary and track number as the
tie-break (the planner's three-branch comparator is exactly that
lexicographic order), and the sort permutes the unsorted changes. -/
theorem C6_sort_year_primary :
    (∀ l : List MusicFileChange,
      (sortChanges l).Perm l ∧ yearFirstSorted (sortChanges l) = true)
    ∧ (∀ results out len cs, get_file_changes results out len = Except.ok cs →
      yearFirstSorted cs = true) := by
  have hlt : ∀ a b : MusicFileChange, (changeCmp a b == Ordering.lt) = true →
      (!(yearFirstCmp a b == Ordering.gt)) = true := by
    intro a b h
    have hc : changeCmp a b = Ordering.lt := by
      cases hc : changeCmp a b
      · rfl
      · rw [hc] at h; exact absurd h (by decide)
      · rw [hc] at h; exact absurd h (by decide)
    rw [← changeCmp_eq_yearFirstCmp, hc]
    rfl
  have hflip : ∀ a b : MusicFileChange, (changeCmp a b == Ordering.lt) = false →
      (!(yearFirstCmp b a == Ordering.gt)) = true := by
    intro a b h
    rw [changeCmp_eq_yearFirstCmp] at h
    rw [yearFirstCmp_swap]
    cases hy : yearFirstCmp a b with
    | lt => rw [hy] at h; exact absurd h (by decide)
    | eq => rfl
    | gt => rfl
  have hsorted : ∀ l : List MusicFileChange, yearFirstSorted (sortChanges l) = true := by
    intro l
    have hchain := sortStable_chain (fun a b => changeCmp a b == Ordering.lt)
      (fun a b => !(yearFirstCmp a b == Ordering.gt)) hlt hflip l
    exact (yearFirstSorted_iff_chain (sortChanges l)).mpr hchain
  refine ⟨fun l => ⟨sortStable_perm _ l, hsorted l⟩, ?_⟩
  intro results out len cs h
  rw [get_file_changes] at h
  cases hm : (matchItems results).mapM (fileChangeFor out len) with
  | error e => rw [hm] at h; exact absurd h (by simp)
  | ok changes =>
    rw [hm] at h
    have : cs = sortChanges changes := by
      cases h
      rfl
    rw [this]
    exact hsorted changes

/-- Fixture for the C6 witness: a single already-simple file. -/
def fC6w : MusicFile :=
  ⟨["d", "w.mp3"], tagSimple (some "t") (some "A") (some 1999) (some 1), none⟩

/-- The change the planner computes for `fC6w`. -/
def cC6w : MusicFileChange :=
  ⟨fC6w, ⟨["d", "01. t.mp3"], tagSimple (some "t") (some "A") (some 1999) (some 1), none⟩,
    false, 0, none⟩

/-- Claim C6, witness: the amended sortedness theorem applied to a concrete
planner run. -/
theorem C6_witness : yearFirstSorted [cC6w] = true :=
  C6_sort_year_primary.2 [DiscogsReleaseMatchResult.unmatched [fC6w]] none
    (fun _ => 0) [cC6w] (by rfl)

/-- Claim C5, confirmed: whenever the matcher accepts a release for a group,
`tracks_matching` has exactly one entry per file of the group, and the files
of the entries, in order, are exactly the group. -/
theorem C5_total_pairing (pre : List Char → List Char) (release : DiscogsRelease)
    (music_files : List MusicFile) (simplified_match : Bool)
    (m : List DiscogsTrackMatch)
    (h : match_release_with_music_files pre release music_files simplified_match = some m) :
    m.length = music_files.length ∧ m.map (fun x => x.music_file) = music_files := by
  simp only [match_release_with_music_files] at h
  split at h
  · exact absurd h (by simp)
  · have := matchFiles_shape pre release.tracks simplified_match music_files m h
    exact ⟨this.2, this.1⟩

/-- Fixture track for claim C5. -/
def tC5 : DiscogsTrack := ⟨"a", 1, 1, some 5000000000, none⟩

/-- Fixture release for claim C5. -/
def relC5 : DiscogsRelease := ⟨"u5", "T", 2020, none, none, [tC5], []⟩

/-- Fixture file for claim C5. -/
def fC5 : MusicFile := ⟨["d", "s.mp3"], tagSimple (some "a") none none none, some 5000000000⟩

/-- Claim C5, witness: the total-pairing theorem applied to a concrete
accepted release. -/
theorem C5_witness :
    match_release_with_music_files asciiPre relC5 [fC5] false = some [⟨fC5, tC5⟩]
    ∧ ([⟨fC5, tC5⟩] : List DiscogsTrackMatch).map (fun x => x.music_file) = [fC5] :=
  ⟨by decide, (C5_total_pairing asciiPre relC5 [fC5] false [⟨fC5, tC5⟩] (by decide)).2⟩

/-- Fixture track "a" at position 1 for claim C4. -/
def tC4a : DiscogsTrack := ⟨"a", 1, 1, some 100000000000, none⟩

/-- Fixture track "z" at position 2 for claim C4. -/
def tC4z : DiscogsTrack := ⟨"z", 2, 1, some 500000000000, none⟩

/-- Fixture release for claim C4 with two tracks. -/
def relC4 : DiscogsRelease := ⟨"u4", "T", 2020, none, none, [tC4a, tC4z], []⟩

/-- Fixture file for claim C4, titled like track "a". -/
def fC4x : MusicFile :=
  ⟨["d", "x.mp3"], tagSimple (some "a") none none none, some 100000000000⟩

/-- Second fixture file for claim C4, also titled like track "a". -/
def fC4y : MusicFile :=
  ⟨["d", "y.mp3"], tagSimple (some "a") none none none, some 100000000000⟩

/-- Claim C4, counterexample: the matcher accepts this release although both
files are paired with the same catalog track (position 1); the assigned
tracks are not pairwise distinct, because the per-file search never removes
already-assigned tracks. -/
theorem C4_counterexample :
    match_release_with_music_files asciiPre relC4 [fC4x, fC4y] false
      = some [⟨fC4x, tC4a⟩, ⟨fC4y, tC4a⟩]
    ∧ ¬ List.Pairwise (fun x y : DiscogsTrackMatch => x.track ≠ y.track)
      [⟨fC4x, tC4a⟩, ⟨fC4y, tC4a⟩] := by
  constructor
  · decide
  · decide

/-- Claim C4, amended: when the matcher accepts a release, the release's
track list is non-empty, its length equals the group's file count (the
cardinality pre-filter), and every assigned track comes from the release's
track list — but the assigned tracks need not be pairwise distinct. -/
theorem C4_accepted_shape (pre : List Char → List Char) (release : DiscogsRelease)
    (music_files : List MusicFile) (simplified_match : Bool)
    (m : List DiscogsTrackMatch)
    (h : match_release_with_music_files pre release music_files simplified_match = some m) :
    release.tracks ≠ [] ∧ release.tracks.length = music_files.length
      ∧ ∀ x ∈ m, x.track ∈ release.tracks := by
  simp only [match_release_with_music_files] at h
  split at h
  · exact absurd h (by simp)
  · rename_i hg
    rw [Bool.or_eq_true] at hg
    push_neg at hg
    have h1 : release.tracks ≠ [] := by
      intro hnil
      exact hg.1 (by rw [hnil]; rfl)
    have h2 : release.tracks.length = music_files.length := by
      cases hd : decide (release.tracks.length ≠ music_files.length)
      · have hne := of_decide_eq_false hd
        omega
      · exact absurd hd hg.2
    refine ⟨h1, h2, ?_⟩
    exact matchFiles_track_mem pre release.tracks simplified_match music_files m h

/-- Claim C4, witness: the amended theorem applied to the concrete accepted
release of the counterexample input. -/
theorem C4_witness :
    relC4.tracks ≠ [] ∧ relC4.tracks.length = [fC4x, fC4y].length
      ∧ ∀ x ∈ [(⟨fC4x, tC4a⟩ : DiscogsTrackMatch), ⟨fC4y, tC4a⟩], x.track ∈ relC4.tracks :=
  C4_accepted_shape asciiPre relC4 [fC4x, fC4y] false [⟨fC4x, tC4a⟩, ⟨fC4y, tC4a⟩] (by decide)

/-- Fixture file for claim C1: title "a", duration 10 s, no track-number. -/
def fC1 : MusicFile :=
  ⟨["d", "f.mp3"], tagSimple (some "a") none none none, some 10000000000⟩

/-- Fixture track for claim C1: dissimilar title "z", same duration. -/
def tC1 : DiscogsTrack := ⟨"z", 1, 1, some 10000000000, none⟩

/-- Fixture release for claim C1. -/
def relC1 : DiscogsRelease := ⟨"u1", "T", 2020, none, none, [tC1], []⟩

/-- Claim C1, counterexample: the file carries no track-number tag, its title
is dissimilar to the track's but the durations agree, so the claim's
condition `(title OR duration) AND (position check skipped)` accepts, while
the code rejects (both of its disjuncts require title similarity): the
one-file group is not matched. -/
theorem C1_counterexample :
    trackMatches asciiPre fC1 tC1 false = false
    ∧ specC1Accepts asciiPre fC1 tC1 = true
    ∧ match_release_with_music_files asciiPre relC1 [fC1] false = none := by
  refine ⟨by decide, by decide, by decide⟩

/-- Claim C1, amended: in the non-simplified evaluation a track is accepted
for a file exactly when title similarity passes AND (duration similarity
passes OR (the file's disc tag, defaulting to 1, equals the track's disc and
the file's track-number tag is present and equals the track's position)). -/
theorem C1_complex_acceptance (pre : List Char → List Char) (f : MusicFile)
    (t : DiscogsTrack) :
    trackMatches pre f t false = true ↔
      (title_matched pre f t = true
        ∧ (duration_matched f.duration t.duration = true
          ∨ disc_position_matched f t = true)) := by
  cases ha : title_matched pre f t <;>
    cases hb : duration_matched f.duration t.duration <;>
    cases hc : disc_position_matched f t <;>
    simp [trackMatches, ha, hb, hc]

/-- Claim C7, counterexample: durations 0 s and 50 s differ by less than the
90 seconds the claim states, yet the code's duration similarity rejects them
(its threshold is 30 seconds). -/
theorem C7_counterexample :
    duration_matched (some 0) (some 50000000000) = false
    ∧ spec_duration_similar (some 0) (some 50000000000) = true := by
  refine ⟨by decide, by decide⟩

/-- Claim C7, amended: duration similarity holds exactly when both durations
are present and their absolute difference is strictly under 30 seconds. -/
theorem C7_duration_threshold (d1? d2? : Option Nat) :
    duration_matched d1? d2? = true ↔
      ∃ d1 d2, d1? = some d1 ∧ d2? = some d2
        ∧ ((d1 : Int) - (d2 : Int)).natAbs < 30 * 1000000000 := by
  cases d1? with
  | none => simp [duration_matched]
  | some d1 =>
    cases d2? with
    | none => simp [duration_matched]
    | some d2 =>
      by_cases hlt : d2 < d1
      · simp only [duration_matched, if_pos hlt, decide_eq_true_eq, Option.some.injEq]
        constructor
        · intro h
          exact ⟨d1, d2, rfl, rfl, by omega⟩
        · rintro ⟨e1, e2, he1, he2, h⟩
          subst he1
          subst he2
          omega
      · simp only [duration_matched, if_neg hlt, decide_eq_true_eq, Option.some.injEq]
        constructor
        · intro h
          exact ⟨d1, d2, rfl, rfl, by omega⟩
        · rintro ⟨e1, e2, he1, he2, h⟩
          subst he1
          subst he2
          omega

/-- The integer-ratio form of the sleep computation equals the source's
formula `(min(used - limit, 0) + 1) * 60 / limit` over ℚ. -/
theorem backoffSleepSeconds_eq (l u : ℚ) :
    backoffSleepSeconds l u = (min (u - l) 0 + 1) * 60 / l := by
  unfold backoffSleepSeconds
  by_cases hl : l = 0
  · subst hl
    simp
  · have hld : ((l.den : ℚ)) ≠ 0 := by
      exact_mod_cast l.den_nz
    have hud : ((u.den : ℚ)) ≠ 0 := by
      exact_mod_cast u.den_nz
    have h1 : (u.num : ℚ) = u * u.den := (div_eq_iff hud).mp (Rat.num_div_den u)
    have h2 : (l.num : ℚ) = l * l.den := (div_eq_iff hld).mp (Rat.num_div_den l)
    rw [Rat.divInt_eq_div]
    push_cast
    have harg : ((u.num : ℚ) * l.den - l.num * u.den) = (u - l) * (u.den * l.den) := by
      rw [h1, h2]
      ring
    rw [harg]
    have hmin : min ((u - l) * ((u.den : ℚ) * l.den)) 0
        = min (u - l) 0 * ((u.den : ℚ) * l.den) := by
      rw [min_mul_of_nonneg _ _ (by positivity)]
      simp
    rw [hmin]
    field_simp
    rw [h2]
    ring

/-- Claim C2, counterexample: at limit 60 and used 61 the code's sleep is
`(min(61 - 60, 0) + 1) * 60 / 60 = 1` second, not the 2 seconds the claim's
`max`-based formula computes. -/
theorem C2_counterexample :
    backoffSleepSeconds 60 61 = 1 ∧ specSleepSeconds 60 61 = 2
      ∧ backoffSleepSeconds 60 61 ≠ specSleepSeconds 60 61 := by
  have h1 : backoffSleepSeconds 60 61 = 1 := by decide
  have h2 : specSleepSeconds 60 61 = 2 := by
    unfold specSleepSeconds
    norm_num
  refine ⟨h1, h2, ?_⟩
  rw [h1, h2]
  norm_num

/-- Claim C2, amended: on a 429 response carrying both numeric rate-limit
headers the client computes `sleep = (min(used - limit, 0) + 1) * 60 / limit`
seconds; when the limit is non-zero and the sleep non-negative it sleeps
exactly that long and retries the same request with the next response, but
when the limit is zero or the sleep negative (any used at most limit minus 2)
`Duration::from_secs_f64` panics and the run aborts instead of retrying. -/
theorem C2_retry_step :
    (∀ (r : HttpResponse) (rs : List HttpResponse) (limit used : ℚ),
      r.status = 429 → r.rateLimit = some limit → r.rateLimitUsed = some used →
      limit ≠ 0 → ¬ backoffSleepSeconds limit used < 0 →
      get_ok (r :: rs) =
        (get_ok rs).map (fun p => (p.1, backoffSleepSeconds limit used :: p.2)))
    ∧ (∀ (r : HttpResponse) (rs : List HttpResponse) (limit used : ℚ),
      r.status = 429 → r.rateLimit = some limit → r.rateLimitUsed = some used →
      (limit = 0 ∨ backoffSleepSeconds limit used < 0) →
      get_ok (r :: rs) = Except.error durationPanicMsg)
    ∧ (∀ limit used : ℚ,
      backoffSleepSeconds limit used = (min (used - limit) 0 + 1) * 60 / limit) := by
  refine ⟨?_, ?_, backoffSleepSeconds_eq⟩
  · intro r rs limit used hs hl hu hlim hnn
    simp only [get_ok, hs, hl, hu]
    rw [if_neg (by decide), if_pos (by decide), if_neg (not_or.mpr ⟨hlim, hnn⟩)]
    cases hr : get_ok rs with
    | error e => rfl
    | ok p => rfl
  · intro r rs limit used hs hl hu hpanic
    simp only [get_ok, hs, hl, hu]
    rw [if_neg (by decide), if_pos (by decide), if_pos hpanic]

/-- Fixture 429 response with limit 60 and used 61 for claim C2. -/
def rC2 : HttpResponse := ⟨429, some 60, some 61⟩

/-- Fixture success response for claim C2. -/
def rC2ok : HttpResponse := ⟨200, none, none⟩

/-- Fixture 429 response with limit 60 and used 10, whose computed sleep is
negative. -/
def rC2panic : HttpResponse := ⟨429, some 60, some 10⟩

/-- Claim C2, witness: a 429 followed by a success sleeps the computed
duration once, retries, and returns the success response, while a 429 far
under budget (used 10 of 60) panics and aborts. -/
theorem C2_witness :
    get_ok [rC2, rC2ok] = Except.ok (rC2ok, [backoffSleepSeconds 60 61])
    ∧ get_ok [rC2panic] = Except.error durationPanicMsg := by
  constructor
  · rw [C2_retry_step.1 rC2 [rC2ok] 60 61 rfl rfl rfl (by decide) (by decide)]
    rfl
  · exact C2_retry_step.2.1 rC2panic [] 60 10 rfl rfl rfl (Or.inr (by decide))

/-- Collapsing double spaces deletes characters: the result is a subsequence
of the input. -/
theorem rEW_sublist : ∀ l : List Char, (remove_excessive_whitespaces l).Sublist l
  | [] => by
    rw [remove_excessive_whitespaces]
  | [c] => by
    rw [remove_excessive_whitespaces]
  | c1 :: c2 :: rest => by
    rw [remove_excessive_whitespaces]
    by_cases h : c1 = ' ' ∧ c2 = ' '
    · rw [if_pos h]
      rcases h with ⟨h1, h2⟩
      subst h1
      subst h2
      exact List.Sublist.cons₂ ' ' (List.Sublist.cons ' ' (rEW_sublist rest))
    · rw [if_neg h]
      exact List.Sublist.cons₂ c1 (rEW_sublist (c2 :: rest))

/-- Claim C9, confirmed: for every transliteration stage and input, the
simplified string is a subsequence of the transliterated lower-cased input
(other characters are deleted outright, never replaced by a separator), and
every character of the result is ASCII alphanumeric or ASCII whitespace. -/
theorem C9_simplify_charset (pre : List Char → List Char) (s : List Char) :
    (simplify pre s).Sublist (pre s)
    ∧ ∀ c ∈ simplify pre s,
      (isAsciiAlphanumericRust c || isAsciiWhitespaceRust c) = true := by
  constructor
  · exact (rEW_sublist _).trans (List.filter_sublist _)
  · intro c hc
    have hc2 : c ∈ remove_special_chars (pre s) := (rEW_sublist _).subset hc
    exact (List.mem_filter.mp hc2).2

/-- Claim C9, witness: the charset theorem applied to a concrete input whose
punctuation is deleted. -/
theorem C9_witness :
    ('a' ∈ simplify asciiPre ("a, b!".data))
    ∧ (isAsciiAlphanumericRust 'a' || isAsciiWhitespaceRust 'a') = true :=
  ⟨by decide, (C9_simplify_charset asciiPre ("a, b!".data)).2 'a' (by decide)⟩

/-- Beyond the end of the name the pattern cannot occur. -/
theorem parenDigit_none_of_ge (name : List Char) (i : Nat) (h : name.length ≤ i) :
    parenDigitOccurrenceAt name i = false := by
  unfold parenDigitOccurrenceAt
  rw [List.drop_eq_nil_of_le h]

/-- The last element of the filtered range is the greatest index satisfying
the predicate. -/
theorem filter_range_getLast (p : Nat → Bool) (n i : Nat) (hi : i < n) (hp : p i = true)
    (hafter : ∀ j, j < n → i < j → p j = false) :
    ((List.range n).filter p).getLast? = some i := by
  induction n with
  | zero => omega
  | succ n ih =>
    rw [List.range_succ, List.filter_append]
    by_cases hin : i = n
    · subst hin
      have hone : List.filter p [i] = [i] := by simp [hp]
      rw [hone]
      exact List.getLast?_concat _
    · have hlt : i < n := by omega
      have hpn : p n = false := hafter n (by omega) (by omega)
      have hnil : List.filter p [n] = [] := by simp [hpn]
      rw [hnil, List.append_nil]
      exact ih hlt (fun j hj1 hj2 => hafter j (by omega) hj2)

/-- Claim C10, counterexample: in the two-line name `A (1)\nB (2)` the last
`space ( digits )` occurrence is at index 7, so the claim's last-occurrence
truncation demands `A (1)\nB`, but the program cuts at the occurrence on the
FIRST line (the regex match is leftmost and its dot cannot cross the
newline) and yields `A`. -/
theorem C10_counterexample :
    discogsArtistName "A (1)\nB (2)" = "A"
    ∧ parenDigitOccurrenceAt ("A (1)\nB (2)".data) 7 = true
    ∧ (∀ j, j < ("A (1)\nB (2)".data).length → 7 < j →
        parenDigitOccurrenceAt ("A (1)\nB (2)".data) j = false)
    ∧ rustTrim ⟨("A (1)\nB (2)".data).take 7⟩ = "A (1)\nB"
    ∧ ("A" : String) ≠ "A (1)\nB" := by
  refine ⟨by decide, by decide, by decide, by decide, by decide⟩

/-- Claim C10, amended: the name is truncated at the start of the last
occurrence of the pattern within the line of the first occurrence (the
leftmost regex match, whose greedy dot-star cannot cross a newline), then
trimmed; for names without newlines — every real catalog artist name — this
is the last occurrence of the whole name, even mid-name; a name with no
occurrence is returned trimmed but otherwise unchanged. -/
theorem C10_artist_name_truncation :
    (∀ (raw : String) (o1 i : Nat),
      firstParenDigitOccurrence raw.data = some o1 →
      parenDigitOccurrenceAt raw.data i = true →
      i < lineEndFrom raw.data o1 →
      (∀ j, j < lineEndFrom raw.data o1 → i < j →
        parenDigitOccurrenceAt raw.data j = false) →
      discogsArtistName raw = rustTrim ⟨raw.data.take i⟩)
    ∧ (∀ raw : String,
      (∀ i, i < raw.data.length → parenDigitOccurrenceAt raw.data i = false) →
      discogsArtistName raw = rustTrim raw) := by
  constructor
  · intro raw o1 i h1 hp hilt hafter
    unfold discogsArtistName
    rw [h1]
    dsimp only
    rw [filter_range_getLast (fun k => parenDigitOccurrenceAt raw.data k)
      (lineEndFrom raw.data o1) i hilt hp hafter]
  · intro raw hnone
    unfold discogsArtistName
    have hf : firstParenDigitOccurrence raw.data = none := by
      unfold firstParenDigitOccurrence
      rw [List.find?_eq_none]
      intro a ha
      rw [List.mem_range] at ha
      simp [hnone a ha]
    rw [hf]

/-- Claim C10, witness: the truncation theorem applied to the mid-name
occurrence example from the claim (a newline-free name, whose line is the
whole name). -/
theorem C10_witness : discogsArtistName "Name (2) Extra" = "Name" := by
  have h := C10_artist_name_truncation.1 "Name (2) Extra" 4 4
    (by decide) (by decide) (by decide) (by decide)
  rw [h]
  decide

/-- Fixture file for claim C8. -/
def fC8 : MusicFile := ⟨["d", "e.mp3"], tagSimple (some "t") (some "A") (some 2000) (some 1), none⟩

/-- Fixture pre-edit change for claim C8. -/
def cC8 : MusicFileChange := ⟨fC8, fC8, false, 0, none⟩

/-- Claim C8, counterexample: a malformed edited line aborts the edit with an
error naming the line; the pre-edit change list is NOT returned — the result
is an error, not the original list. -/
theorem C8_counterexample :
    edit_changes [cC8] (some ["garbage", TRACK_DELIMITER]) none
      = Except.error "Invalid line: garbage"
    ∧ (edit_changes [cC8] (some ["garbage", TRACK_DELIMITER]) none).isOk = false :=
  ⟨rfl, rfl⟩

/-- The rebuilt list of a successful edit has exactly one entry per pre-edit
entry. -/
theorem editLoop_length (out : Option FsPath) :
    ∀ (changes : List MusicFileChange) (lines : List String)
      (cs' : List MusicFileChange),
    editLoop out changes lines = Except.ok cs' → cs'.length = changes.length := by
  intro changes
  induction changes with
  | nil =>
    intro lines cs' h
    simp only [editLoop] at h
    cases h
    rfl
  | cons c cs ih =>
    intro lines cs' h
    simp only [editLoop] at h
    split at h
    · exact absurd h (by simp)
    · split at h
      · exact absurd h (by simp)
      · split at h
        · exact absurd h (by simp)
        · rename_i others hothers
          cases h
          simp only [List.length_cons]
          exact congrArg Nat.succ (ih _ others hothers)

/-- Claim C8, amended: when the editor is closed without saving, the pre-edit
list is returned unchanged; a line that does not match the `key: value`
pattern aborts the whole edit with the error `Invalid line: <line>` (which
propagates — the pre-edit list is not returned); and a successful edit never
produces a partial list: it has exactly one entry per pre-edit entry. -/
theorem C8_edit_abort :
    (∀ (changes : List MusicFileChange) (out : Option FsPath),
      edit_changes changes none out = Except.ok changes)
    ∧ (∀ (c : MusicFileChange) (cs : List MusicFileChange) (line : String)
        (rest : List String) (out : Option FsPath),
      parseLine line = none → line ≠ TRACK_DELIMITER →
      edit_changes (c :: cs) (some (line :: rest)) out
        = Except.error ("Invalid line: " ++ line))
    ∧ (∀ (changes : List MusicFileChange) (lines : List String) (out : Option FsPath)
        (cs' : List MusicFileChange),
      edit_changes changes (some lines) out = Except.ok cs' →
      cs'.length = changes.length) := by
  refine ⟨fun changes out => rfl, ?_, ?_⟩
  · intro c cs line rest out hp hne
    have hbe : (line == TRACK_DELIMITER) = false := by
      rw [beq_eq_false_iff_ne]
      exact hne
    simp only [edit_changes, editLoop, parseTrackSection, hbe, Bool.false_eq_true,
      if_false, applyEditedLine, hp]
  · intro changes lines out cs' h
    exact editLoop_length out changes lines cs' h

/-- Claim C8, witness: the abort theorem applied to a concrete malformed
line. -/
theorem C8_witness :
    edit_changes [cC8] (some ["oops", TRACK_DELIMITER]) none
      = Except.error ("Invalid line: " ++ "oops") :=
  C8_edit_abort.2.1 cC8 [] "oops" [TRACK_DELIMITER] none (by decide) (by decide)

/-- A file that is exactly the output of a previous planner run for the given
catalog track and release (the spec's idempotence scenario): its tag is the
one synthesized from the catalog data, its extension is not `flac` (a first
run rewrites flac to m4a), and its file name is the canonical name derived
from its own tag. -/
def organized_by_previous_run (t : DiscogsTrack) (r : DiscogsRelease) (f : MusicFile) : Prop :=
  f.tag = create_tag_from_discogs_data f.tag t r
  ∧ extension_or_empty f.file_path ≠ "flac"
  ∧ f.file_path ≠ []
  ∧ music_file_name_for f.tag (extension_or_empty f.file_path)
      = Except.ok (file_name_or_empty f.file_path)

theorem parent_append_file_name (p : FsPath) (hne : p ≠ []) :
    parent_or_empty p ++ [file_name_or_empty p] = p := by
  unfold parent_or_empty file_name_or_empty
  rw [List.getLastD_eq_getLast?, List.getLast?_eq_getLast p hne]
  exact List.dropLast_append_getLast hne

theorem fileChangeFor_organized (len : FsPath → Nat) (t : DiscogsTrack)
    (r : DiscogsRelease) (f : MusicFile) (h : organized_by_previous_run t r f) :
    fileChangeFor none len (f, some (t, r)) =
      Except.ok ⟨f, f, false, len f.file_path, some r⟩ := by
  rcases h with ⟨htag, hext, hne, hname⟩
  have hflac : (extension_or_empty f.file_path == "flac") = false := by
    rw [beq_eq_false_iff_ne]
    exact hext
  simp only [fileChangeFor, ← htag, hflac, Bool.false_eq_true, if_false, hname,
    parent_append_file_name f.file_path hne]
  simp

theorem mapM_organized (len : FsPath → Nat) (r : DiscogsRelease)
    (ms : List DiscogsTrackMatch)
    (h : ∀ m ∈ ms, organized_by_previous_run m.track r m.music_file) :
    (matchItems [DiscogsReleaseMatchResult.matched ms r]).mapM
      (fileChangeFor none len)
    = Except.ok (ms.map (fun m =>
        ⟨m.music_file, m.music_file, false, len m.music_file.file_path, some r⟩)) := by
  induction ms with
  | nil => rfl
  | cons m ms ih =>
    have h1 := fileChangeFor_organized len m.track r m.music_file (h m (by simp))
    have h2 := ih (fun x hx => h x (by simp [hx]))
    simp only [matchItems, List.flatMap_cons, List.flatMap_nil, List.map_cons,
      List.append_nil, List.mapM_cons] at h2 ⊢
    rw [h1, h2]
    rfl

/-- Claim C3, amended: re-planning over the output of a previous run with the
same catalog data yields a change list in which every music-file change is an
identity change — the target equals the source in path, tag and duration, and
no transcode is required — but the list itself is NOT empty: the planner
emits one (no-op) change per file, it never compares the DISCOGS_RELEASE
frame to skip already-organized files. -/
theorem C3_rerun_changes_are_noops (ms : List DiscogsTrackMatch)
    (r : DiscogsRelease) (len : FsPath → Nat) (cs : List MusicFileChange)
    (horg : ∀ m ∈ ms, organized_by_previous_run m.track r m.music_file)
    (h : get_file_changes [DiscogsReleaseMatchResult.matched ms r] none len
      = Except.ok cs) :
    ∀ c ∈ cs, c.target = c.source ∧ c.is_transcode = false := by
  rw [get_file_changes, mapM_organized len r ms horg] at h
  have hcs : cs = sortChanges (ms.map (fun m =>
      ⟨m.music_file, m.music_file, false, len m.music_file.file_path, some r⟩)) := by
    cases h
    rfl
  subst hcs
  intro c hc
  have hc2 := (mem_sortStable _ _ c).mp hc
  rcases List.mem_map.mp hc2 with ⟨m, _, rfl⟩
  exact ⟨rfl, rfl⟩

/-- Fixture catalog track for claim C3. -/
def tC3 : DiscogsTrack := ⟨"Song", 1, 1, some 200000000000, none⟩

/-- Fixture catalog release for claim C3. -/
def relC3 : DiscogsRelease :=
  ⟨"uri3", "Alb", 2020, some ["Rock"], none, [tC3], [⟨"Artist", some ""⟩]⟩

/-- The tag a first run writes for `tC3` in `relC3`. -/
def tagC3 : Tag := create_tag_from_discogs_data clearedTag tC3 relC3

/-- A file as left on disk by a first run: canonical path, synthesized tag. -/
def fC3 : MusicFile :=
  ⟨["lib", "Artist", "(2020) Alb", "01. Song.m4a"], tagC3, some 200000000000⟩

/-- The (no-op) change the second run plans for `fC3`. -/
def cC3 : MusicFileChange := ⟨fC3, fC3, false, 7, some relC3⟩

/-- Claim C3, counterexample: re-planning over an already-organized file with
identical catalog data does NOT produce an empty music-file list — the
planner emits one change for the file (a no-op change, but an entry
nonetheless), so the claimed `music_files = []` is false. -/
theorem C3_counterexample :
    (get_file_changes [DiscogsReleaseMatchResult.matched [⟨fC3, tC3⟩] relC3]
      none (fun _ => 7)).toOption.map List.length = some 1
    ∧ (get_file_changes [DiscogsReleaseMatchResult.matched [⟨fC3, tC3⟩] relC3]
      none (fun _ => 7)).toOption ≠ some [] := by
  refine ⟨rfl, by decide⟩

/-- Claim C3, witness: the no-op theorem applied to the concrete re-run. -/
theorem C3_witness : cC3.target = cC3.source ∧ cC3.is_transcode = false :=
  C3_rerun_changes_are_noops [⟨fC3, tC3⟩] relC3 (fun _ => 7) [cC3]
    (by
      intro m hm
      have hmeq : m = ⟨fC3, tC3⟩ := by simpa using hm
      subst hmeq
      exact ⟨rfl, by decide, by decide, rfl⟩)
    (by rfl) cC3 (by simp)
